import Mathlib

/-!
# Assessment Scoring & Progress Analytics Engine — verification development

Shallow embedding of the scoring/progress subsystem of the Testatar app:
the grading step of `submitTest` and the badge-reconciliation step of
`saveReport` (src/App.tsx), `updateGoalProgress` (src/services/goalService.ts)
and `checkAllBadges` (src/services/badgeService.ts).

Modelling conventions:
* JavaScript timestamps are `Int` milliseconds since the Unix epoch; the
  local timezone used by `setHours(0,0,0,0)`, `getDay()` etc. is taken to
  be UTC, so local midnight is a multiple of 86400000 and
  Jan 1 1970 (day 0) is a Thursday (`getDay() = 4`).
* TS `number` values that participate in division (scores, marks,
  averages) are `ℚ`; counts are `Nat`.
* TS optional fields are `Option`; JS `a === b` on two possibly-undefined
  values is `Option` equality (`undefined === undefined` is `true`).
* Fallible JS code (property access on `undefined`, which throws a
  TypeError and rejects the enclosing promise) is `Option`-valued: `none`
  models the thrown exception.
* The external `GeminiService.generateSolution` call is modelled by an
  arbitrary function argument `gen`; its success value and its
  catch-branch fallback string are both just a `String`, which is all the
  grading logic observes.
-/

/-! ## Time model (JS `Date` operations used by the services) -/

def msPerDay : Int := 86400000

/-- `new Date(t).setHours(0,0,0,0)`: midnight of the calendar day of `t`. -/
def startOfDay (t : Int) : Int := (t.ediv msPerDay) * msPerDay

/-- `new Date(t).getDay()`: 0 = Sunday … 6 = Saturday. Day 0 is a Thursday. -/
def dayOfWeek (t : Int) : Int := (t.ediv msPerDay + 4).emod 7

/-- Days since the epoch of the proleptic-Gregorian civil date `(y, m, d)`. -/
def daysFromCivil (y m d : Int) : Int :=
  let y1 : Int := if m ≤ 2 then y - 1 else y
  let era : Int := (if 0 ≤ y1 then y1 else y1 - 399).ediv 400
  let yoe : Int := y1 - era * 400
  let mp : Int := (m + 9).emod 12
  let doy : Int := (153 * mp + 2).ediv 5 + d - 1
  let doe : Int := yoe * 365 + yoe.ediv 4 - yoe.ediv 100 + doy
  era * 146097 + doe - 719468

/-- Civil date `(year, month, day)` of a count of days since the epoch. -/
def civilFromDays (z0 : Int) : Int × Int × Int :=
  let z : Int := z0 + 719468
  let era : Int := (if 0 ≤ z then z else z - 146096).ediv 146097
  let doe : Int := z - era * 146097
  let yoe : Int := (doe - doe.ediv 1460 + doe.ediv 36524 - doe.ediv 146096).ediv 365
  let y : Int := yoe + era * 400
  let doy : Int := doe - (365 * yoe + yoe.ediv 4 - yoe.ediv 100)
  let mp : Int := (5 * doy + 2).ediv 153
  let d : Int := doy - (153 * mp + 2).ediv 5 + 1
  let m : Int := if mp < 10 then mp + 3 else mp - 9
  (if m ≤ 2 then y + 1 else y, m, d)

inductive Timeframe where
  | week
  | month
deriving DecidableEq

/-- `getStartDate` of goalService.ts: midnight of the last Sunday on or
before `startDateStr` (week), or midnight of the first of its month. -/
def getStartDate : Timeframe → Int → Int
  | .week, s => startOfDay s - dayOfWeek s * msPerDay
  | .month, s =>
      let c := civilFromDays (s.ediv msPerDay)
      daysFromCivil c.1 c.2.1 1 * msPerDay

/-- `getEndDate` of goalService.ts: 7 days later (week), or
`setMonth(getMonth()+1)` (month), which JS evaluates as the same
day-of-month of the next month, overflow rolling forward — equivalently
the first of the next month plus `(day - 1)` days, keeping time of day. -/
def getEndDate : Timeframe → Int → Int
  | .week, ws => ws + 7 * msPerDay
  | .month, ws =>
      let c := civilFromDays (ws.ediv msPerDay)
      let y : Int := if c.2.1 = 12 then c.1 + 1 else c.1
      let m : Int := if c.2.1 = 12 then 1 else c.2.1 + 1
      (daysFromCivil y m 1 + (c.2.2 - 1)) * msPerDay + (ws - startOfDay ws)

/-! ## Data model (src/types.ts) -/

inductive QuestionType where
  | MCQ
  | SHORT
  | LONG
deriving DecidableEq

structure Question where
  questionText : String
  questionType : QuestionType
  marks : ℚ
  topic : String
  options : Option (List String)
  correctOptionIndex : Option Nat
  modelAnswer : Option String
deriving DecidableEq

structure Test where
  id : String
  subject : String
  chapter : String
  questions : List Question
deriving DecidableEq

structure Answer where
  questionIndex : Nat
  selectedOptionIndex : Option Nat
  writtenAnswer : Option String
  isCorrect : Option Bool
  solution : Option String
deriving DecidableEq

/-- `Report` of src/types.ts. `feedbackPreference` is `true` for `'full'`,
`false` for `'summary'`. The extra `testId` key the App.tsx literal adds
beyond the interface is omitted; no consumer reads it. -/
structure Report where
  id : String
  subject : String
  chapter : String
  score : ℚ
  totalMarks : ℚ
  marksScored : ℚ
  totalQuestions : Nat
  correctAnswers : Nat
  timeTaken : Nat
  date : Int
  weakAreas : List String
  answers : List Answer
  questions : List Question
  feedbackPreference : Bool
deriving DecidableEq

inductive GoalType where
  | completion
  | improvement
deriving DecidableEq

inductive GoalStatus where
  | active
  | completed
deriving DecidableEq

structure Goal where
  id : String
  description : String
  type : GoalType
  subject : String
  targetValue : ℚ
  currentValue : ℚ
  timeframe : Timeframe
  startDate : Int
  status : GoalStatus
deriving DecidableEq

/-! ## String helpers (JS `toLowerCase` / `includes` on ASCII data) -/

/-- ASCII lowercasing of one character, as `String.prototype.toLowerCase`
acts on ASCII. -/
def lowerChar (c : Char) : Char :=
  if 65 ≤ c.toNat ∧ c.toNat ≤ 90 then Char.ofNat (c.toNat + 32) else c

def toLowerList (s : String) : List Char := s.toList.map lowerChar

def leadsWith : List Char → List Char → Bool
  | [], _ => true
  | _ :: _, [] => false
  | a :: as, b :: bs => a == b && leadsWith as bs

/-- `s.includes(sub)`: `sub` occurs contiguously in `s`. -/
def hasSub : List Char → List Char → Bool
  | [], sub => leadsWith sub []
  | c :: rest, sub => leadsWith sub (c :: rest) || hasSub rest sub

/-! ## Generic list helpers (JS `Set` insertion-order dedup, stable sort) -/

/-- `[...new Set(l)]` relative to already-seen elements: keeps the first
occurrence of each value, in order. -/
def dedupKeepFirst [DecidableEq α] (seen : List α) : List α → List α
  | [] => []
  | x :: xs =>
      if x ∈ seen then dedupKeepFirst seen xs
      else x :: dedupKeepFirst (x :: seen) xs

def insertLe (le : α → α → Bool) (a : α) : List α → List α
  | [] => [a]
  | x :: xs => if le x a then x :: insertLe le a xs else a :: x :: xs

/-- Stable ascending sort, the behaviour of `Array.prototype.sort` with a
numeric comparator. -/
def sortByLe (le : α → α → Bool) (l : List α) : List α :=
  l.foldl (fun acc a => insertLe le a acc) []

/-! ## Achievement Evaluator (src/services/badgeService.ts `checkAllBadges`) -/

def dayInMillis : Int := 86400000

/-- Distinct report days collapsed to local midnight, sorted ascending:
`[...new Set(reports.map(r => new Date(r.date).setHours(0,0,0,0)))].sort((a,b) => a-b)`. -/
def uniqueSortedDays (reports : List Report) : List Int :=
  sortByLe (fun a b => decide (a ≤ b))
    (dedupKeepFirst [] (reports.map (fun r => startOfDay r.date)))

/-- The streak loop of `checkAllBadges`: `prev` is the previous day's
timestamp, `cur` the running streak, `mx` the best completed streak. -/
def streakScan (prev : Int) (cur mx : Nat) : List Int → Nat
  | [] => max mx cur
  | t :: rest =>
      if t - prev = dayInMillis then streakScan t (cur + 1) mx rest
      else if t - prev > dayInMillis then streakScan t 1 (max mx cur) rest
      else streakScan t cur mx rest

def maxStreakOf : List Int → Nat
  | [] => 0
  | t :: rest => streakScan t 1 0 rest

/-- `checkAllBadges` of badgeService.ts. A JS `Set` of distinct string
literals spread into an array is the insertion-ordered list below; the
`!reports` null guard cannot fire on a genuine array and is dropped. -/
def checkAllBadges (reports : List Report) : List String :=
  if reports.length = 0 then []
  else
    (if reports.length ≥ 1 then ["first_test"] else [])
    ++ (if reports.any (fun r => decide (r.score = 100)) then ["perfect_score"] else [])
    ++ (let days := uniqueSortedDays reports
        if days.length ≥ 5 then
          if maxStreakOf days ≥ 5 then ["streak_5_day"] else []
        else [])
    ++ (if (reports.filter (fun r => hasSub (toLowerList r.subject) "math".toList)).length ≥ 3
        then ["math_whiz"] else [])
    ++ (if (reports.filter (fun r => hasSub (toLowerList r.subject) "science".toList)).length ≥ 3
        then ["science_genius"] else [])

/-- The badge-reconciliation step of `saveReport` in App.tsx: re-evaluate
all badges over the updated history; if any id is new, the profile's badge
list is overwritten with the full recomputed list, otherwise the profile
is left untouched. Returns the profile's badge list afterwards. -/
def saveReportBadges (currentBadges : List String) (updatedReports : List Report) : List String :=
  let allEarnedBadges := checkAllBadges updatedReports
  let newBadges := allEarnedBadges.filter (fun b => !(currentBadges.contains b))
  if newBadges.length > 0 then allEarnedBadges else currentBadges

/-! ## Goal Progress Tracker (src/services/goalService.ts `updateGoalProgress`) -/

/-- `goal.subject.toLowerCase() === 'any' || r.subject.toLowerCase().includes(goal.subject.toLowerCase())`. -/
def subjectMatch (goal : Goal) (r : Report) : Bool :=
  toLowerList goal.subject == "any".toList
    || hasSub (toLowerList r.subject) (toLowerList goal.subject)

def calculateAverage (arr : List Report) : ℚ :=
  if arr.length > 0 then (arr.map Report.score).sum / (arr.length : ℚ) else 0

def goalWindowStart (goal : Goal) : Int := getStartDate goal.timeframe goal.startDate

def goalWindowEnd (goal : Goal) : Int := getEndDate goal.timeframe (goalWindowStart goal)

def inWindow (goal : Goal) (r : Report) : Bool :=
  decide (goalWindowStart goal ≤ r.date) && decide (r.date < goalWindowEnd goal)

/-- Subject-matching reports sorted ascending by date (the improvement branch). -/
def sortedSubjectReports (goal : Goal) (reports : List Report) : List Report :=
  sortByLe (fun a b => decide (a.date ≤ b.date)) (reports.filter (subjectMatch goal))

def baselineReportsOf (goal : Goal) (reports : List Report) : List Report :=
  (sortedSubjectReports goal reports).filter (fun r => decide (r.date < goal.startDate))

def progressReportsOf (goal : Goal) (reports : List Report) : List Report :=
  (sortedSubjectReports goal reports).filter (inWindow goal)

/-- The completion branch's `relevantReports` filter. -/
def completionRelevant (goal : Goal) (reports : List Report) : List Report :=
  reports.filter (fun r => subjectMatch goal r && inWindow goal r)

/-- The body of the `goals.map` in `updateGoalProgress`, with `now`
(`new Date()` in the source) passed explicitly. -/
def updateGoal (now : Int) (reports : List Report) (goal : Goal) : Goal :=
  if goal.status = .completed then goal
  else if now > goalWindowEnd goal ∧ goal.status = .active then
    { goal with status := .completed }
  else
    let currentValue : ℚ :=
      match goal.type with
      | .completion => ((completionRelevant goal reports).length : ℚ)
      | .improvement =>
          let baselineScore := calculateAverage (baselineReportsOf goal reports)
          let currentAvgScore := calculateAverage (progressReportsOf goal reports)
          if (progressReportsOf goal reports).length > 0 then currentAvgScore - baselineScore
          else 0
    { goal with
        currentValue := max 0 currentValue,
        status := if currentValue ≥ goal.targetValue then .completed else .active }

/-- `updateGoalProgress` of goalService.ts. The `!reports` null guard
cannot fire on a genuine array and is dropped. -/
def updateGoalProgress (now : Int) (goals : List Goal) (reports : List Report) : List Goal :=
  goals.map (updateGoal now reports)

/-! ## Grading Engine (the pure core of `submitTest` in App.tsx) -/

/-- Accumulators of the `testAnswers.map` loop in `submitTest`. -/
structure GradeOut where
  answers : List Answer
  correctCount : Nat
  totalMcqMarks : ℚ
  marksScored : ℚ
deriving DecidableEq

/-- The body of one pass of the `testAnswers.map(async (ans, index) => …)`
loop in `submitTest`, given the question `q` at the answer's position and
the accumulators `out` of the remaining answers. -/
def gradeStep (full : Bool) (gen : Question → Answer → String) (q : Question)
    (ans : Answer) (out : GradeOut) : GradeOut :=
  let correct : Option Bool :=
    if q.questionType = .MCQ then some (ans.selectedOptionIndex = q.correctOptionIndex)
    else none
  let sol : Option String :=
    if q.questionType = .MCQ then
      if ans.selectedOptionIndex = q.correctOptionIndex then q.modelAnswer
      else if q.options.isSome ∧ ans.selectedOptionIndex.isSome then
        if full then some (gen q ans) else none
      else q.modelAnswer
    else q.modelAnswer
  let isC : Bool := q.questionType = .MCQ && ans.selectedOptionIndex = q.correctOptionIndex
  ⟨{ ans with isCorrect := correct, solution := sol } :: out.answers,
   (if isC then 1 else 0) + out.correctCount,
   (if q.questionType = .MCQ then q.marks else 0) + out.totalMcqMarks,
   (if isC then q.marks else 0) + out.marksScored⟩

/-- The `testAnswers.map(async (ans, index) => …)` loop of `submitTest`,
threading the four accumulators. `questions[index]` on an out-of-range
index is `undefined` in JS and the subsequent property access throws,
rejecting the whole `Promise.all`: modelled as `none`. -/
def gradeAnswers (full : Bool) (gen : Question → Answer → String)
    (questions : List Question) : Nat → List Answer → Option GradeOut
  | _, [] => some ⟨[], 0, 0, 0⟩
  | i, ans :: rest =>
      (questions[i]?).bind fun q =>
        (gradeAnswers full gen questions (i + 1) rest).map (gradeStep full gen q ans)

/-- The topic lookups of the `weakAreas` expression:
`processedAnswers.filter(a => a.isCorrect === false).map(a => currentTest.questions[a.questionIndex].topic)`.
An out-of-range `questionIndex` throws (modelled `none`). -/
def topicsOfIncorrect (questions : List Question) : List Answer → Option (List String)
  | [] => some []
  | a :: rest =>
      if a.isCorrect = some false then
        (questions[a.questionIndex]?).bind fun q =>
          (topicsOfIncorrect questions rest).map fun ts => q.topic :: ts
      else topicsOfIncorrect questions rest

/-- The grading core of `submitTest` in App.tsx: from the current test and
the submitted answers to the `Report` it constructs (`none` when the JS
code would throw). `full` is the feedback preference, `gen` the external
explanation service, `nowDate` the value of `new Date()` at submission. -/
def submitTest (full : Bool) (gen : Question → Answer → String) (test : Test)
    (answers : List Answer) (timeTaken : Nat) (nowDate : Int) (repId : String) :
    Option Report :=
  (gradeAnswers full gen test.questions 0 answers).bind fun out =>
    let score : ℚ := if out.totalMcqMarks > 0 then out.marksScored / out.totalMcqMarks * 100 else 0
    (topicsOfIncorrect test.questions out.answers).map fun ts =>
      { id := repId
        subject := test.subject
        chapter := test.chapter
        score := score
        totalMarks := (test.questions.map Question.marks).sum
        marksScored := out.marksScored
        totalQuestions := test.questions.length
        correctAnswers := out.correctCount
        timeTaken := timeTaken
        date := nowDate
        weakAreas := dedupKeepFirst [] ts
        answers := out.answers
        questions := test.questions
        feedbackPreference := full }

/-- Spec-side description of the weak-areas source list before
deduplication: the topic labels of the questions answered incorrectly, in
answer order (following the spec's words, for comparison with the
grading core's `topicsOfIncorrect`). -/
def specIncorrectTopics (qs : List Question) (ans : List Answer) : List String :=
  ans.filterMap fun a =>
    if a.isCorrect = some false then (qs[a.questionIndex]?).map Question.topic else none

/-! ## Concrete fixtures for witnesses and counterexamples -/

/-- A report fixture; only `subject`, `score` and `date` vary across uses. -/
def mkReport (subj : String) (sc : ℚ) (d : Int) : Report :=
  { id := "r", subject := subj, chapter := "ch", score := sc, totalMarks := 10,
    marksScored := 5, totalQuestions := 2, correctAnswers := 1, timeTaken := 60,
    date := d, weakAreas := [], answers := [], questions := [], feedbackPreference := true }

def defaultReport : Report :=
  { id := "", subject := "", chapter := "", score := 0, totalMarks := 0,
    marksScored := 0, totalQuestions := 0, correctAnswers := 0, timeTaken := 0,
    date := 0, weakAreas := [], answers := [], questions := [], feedbackPreference := true }

/-- A stand-in for the external explanation service. -/
def genFix : Question → Answer → String := fun _ _ => "explanation"

def qShortFix : Question :=
  { questionText := "q", questionType := .SHORT, marks := 5, topic := "T",
    options := none, correctOptionIndex := none, modelAnswer := some "m" }

def qMcqFix (t : String) : Question :=
  { questionText := "q", questionType := .MCQ, marks := 1, topic := t,
    options := some ["a", "b", "c", "d"], correctOptionIndex := some 1,
    modelAnswer := none }

def ansFix (i : Nat) (sel : Option Nat) : Answer :=
  { questionIndex := i, selectedOptionIndex := sel, writtenAnswer := none,
    isCorrect := none, solution := none }

/-- An active improvement goal for the week containing the epoch. -/
def goalImpFix : Goal :=
  { id := "g1", description := "improve", type := .improvement, subject := "Any",
    targetValue := 10, currentValue := 0, timeframe := .week, startDate := 0,
    status := .active }

/-- A goal already completed. -/
def goalDoneFix : Goal :=
  { id := "g2", description := "done", type := .completion, subject := "Math",
    targetValue := 3, currentValue := 3, timeframe := .week, startDate := 0,
    status := .completed }

def historyRepFix : Report := mkReport "History" 50 0

/-- Reports on the calendar days 0,1,1,2,4,5,6,7 (Jan 1–8 1970 minus Jan 4,
with two reports on day 1). -/
def streakRepsA : List Report :=
  [mkReport "A" 10 5, mkReport "A" 10 (1 * 86400000 + 7),
   mkReport "A" 10 (1 * 86400000 + 9), mkReport "A" 10 (2 * 86400000),
   mkReport "A" 10 (4 * 86400000 + 1), mkReport "A" 10 (5 * 86400000 + 2),
   mkReport "A" 10 (6 * 86400000 + 3), mkReport "A" 10 (7 * 86400000 + 4)]

/-- The same history with a report on the missing day (Jan 4 1970). -/
def streakRepsB : List Report := streakRepsA ++ [mkReport "A" 10 (3 * 86400000 + 11)]

/-- A one-question all-free-text test: zero multiple-choice questions. -/
def testShortFix : Test := { id := "t", subject := "Science", chapter := "ch", questions := [qShortFix] }

/-- The report the grading core produces for `testShortFix` with its single
question answered in writing. -/
def c1rep : Report :=
  (submitTest true genFix testShortFix [ansFix 0 none] 10 0 "r").get (by decide)

/-- One in-window Math report (day 1, score 80) and one baseline Math
report (10 days before the epoch, score 40) for `goalImpFix`. -/
def c6reports : List Report :=
  [mkReport "Math" 80 86400000, mkReport "Math" 40 (-10 * 86400000)]

/-- A two-question multiple-choice test, 1 mark each. -/
def testTwoMcqFix : Test :=
  { id := "t2", subject := "Math", chapter := "ch", questions := [qMcqFix "T1", qMcqFix "T2"] }

/-- A one-question multiple-choice test. -/
def testOneMcqFix : Test :=
  { id := "t1", subject := "Math", chapter := "ch", questions := [qMcqFix "T1"] }

/-- A four-question multiple-choice test, 1 mark each. -/
def testFourFix : Test :=
  { id := "t4", subject := "Math", chapter := "ch",
    questions := [qMcqFix "T1", qMcqFix "T2", qMcqFix "T3", qMcqFix "T4"] }

/-- Answers `[correct, correct, incorrect, unanswered]` for `testFourFix`. -/
def fourAnswers : List Answer :=
  [ansFix 0 (some 1), ansFix 1 (some 1), ansFix 2 (some 0), ansFix 3 none]

/-- The report graded from `testFourFix` with `fourAnswers`. -/
def c8rep : Report :=
  (submitTest true genFix testFourFix fourAnswers 100 0 "r8").get (by decide)

/-! ## Theorems -/

theorem updateGoalProgress_get (now : Int) (goals : List Goal) (reports : List Report)
    (i : Nat) (h1 : i < goals.length)
    (h2 : i < (updateGoalProgress now goals reports).length) :
    (updateGoalProgress now goals reports).get ⟨i, h2⟩
      = updateGoal now reports (goals.get ⟨i, h1⟩) := by
  simp [updateGoalProgress, List.get_eq_getElem, List.getElem_map]

theorem updateGoal_of_completed (now : Int) (reports : List Report) (goal : Goal)
    (hc : goal.status = GoalStatus.completed) :
    updateGoal now reports goal = goal := by
  unfold updateGoal
  rw [if_pos hc]

/-- C4: `updateGoalProgress` never maps a goal whose status is `completed`
to status `active`; goal status is monotonic. -/
theorem c4_status_monotone (now : Int) (goals : List Goal) (reports : List Report)
    (i : Nat) (h1 : i < goals.length)
    (h2 : i < (updateGoalProgress now goals reports).length)
    (hc : (goals.get ⟨i, h1⟩).status = GoalStatus.completed) :
    ((updateGoalProgress now goals reports).get ⟨i, h2⟩).status ≠ GoalStatus.active := by
  rw [updateGoalProgress_get now goals reports i h1 h2,
      updateGoal_of_completed now reports _ hc, hc]
  decide

/-- Witness for C4 at a concrete completed goal. -/
theorem c4_witness :
    ((updateGoalProgress 0 [goalDoneFix] []).get ⟨0, by decide⟩).status
      ≠ GoalStatus.active :=
  c4_status_monotone 0 [goalDoneFix] [] 0 (by decide) (by decide) (by decide)

/-- C10: a goal whose status is already `completed` is returned by
`updateGoalProgress` entirely unchanged — every field is frozen, whatever
the report history and evaluation time. -/
theorem c10_completed_frozen (now : Int) (goals : List Goal) (reports : List Report)
    (i : Nat) (h1 : i < goals.length)
    (h2 : i < (updateGoalProgress now goals reports).length)
    (hc : (goals.get ⟨i, h1⟩).status = GoalStatus.completed) :
    (updateGoalProgress now goals reports).get ⟨i, h2⟩ = goals.get ⟨i, h1⟩ := by
  rw [updateGoalProgress_get now goals reports i h1 h2,
      updateGoal_of_completed now reports _ hc]

/-- Witness for C10 at a concrete completed goal, a nonempty history and a
late evaluation time. -/
theorem c10_witness :
    (updateGoalProgress (20 * 86400000) [goalDoneFix] [historyRepFix]).get ⟨0, by decide⟩
      = [goalDoneFix].get ⟨0, by decide⟩ :=
  c10_completed_frozen (20 * 86400000) [goalDoneFix] [historyRepFix] 0
    (by decide) (by decide) (by decide)

/-- C5: an `active` goal evaluated strictly past its window end is set to
`completed` regardless of whether the target was reached. -/
theorem c5_expiry_completes (now : Int) (reports : List Report) (goal : Goal)
    (ha : goal.status = GoalStatus.active) (hpast : now > goalWindowEnd goal) :
    (updateGoal now reports goal).status = GoalStatus.completed := by
  have hne : ¬ goal.status = GoalStatus.completed := by rw [ha]; decide
  unfold updateGoal
  rw [if_neg hne, if_pos ⟨hpast, ha⟩]

/-- Witness for C5: an active goal far from its target, ten days past a
one-week window. -/
theorem c5_witness : (updateGoal (10 * 86400000) [] goalImpFix).status = GoalStatus.completed :=
  c5_expiry_completes (10 * 86400000) [] goalImpFix rfl (by decide)

/-- C9: the Goal Progress Tracker and the Achievement Evaluator are pure
functions of their inputs (the source's `new Date()` is the explicit `now`
argument), so two runs on identical input are bit-identical. -/
theorem c9_deterministic (now : Int) (goals : List Goal) (reports : List Report) :
    updateGoalProgress now goals reports = updateGoalProgress now goals reports
      ∧ checkAllBadges reports = checkAllBadges reports :=
  ⟨rfl, rfl⟩

/-- C2 counterexample: a profile holding a previously granted badge id that
the (post-deletion) history no longer justifies loses it as soon as a new
badge is granted: the save step overwrites the profile's list with the
recomputed set instead of unioning. -/
theorem c2_counterexample :
    "streak_5_day" ∈ ["streak_5_day"]
      ∧ "streak_5_day" ∉ saveReportBadges ["streak_5_day"] [historyRepFix] := by
  decide

/-- C2 amended: the earned badge set only grows across the save step
provided every previously granted id still qualifies under the recomputed
set; when some previously granted id no longer qualifies and at least one
new id qualifies, the stored list is replaced by the recomputed set and
such ids are dropped. -/
theorem c2_amended (currentBadges : List String) (updatedReports : List Report)
    (h : currentBadges ⊆ checkAllBadges updatedReports) :
    currentBadges ⊆ saveReportBadges currentBadges updatedReports := by
  intro b hb
  by_cases hn :
    ((checkAllBadges updatedReports).filter (fun b => !(currentBadges.contains b))).length > 0
  · simp only [saveReportBadges, if_pos hn]
    exact h hb
  · simp only [saveReportBadges, if_neg hn]
    exact hb

/-- Witness for C2-amended: a still-qualifying badge list is preserved. -/
theorem c2_witness : ["first_test"] ⊆ saveReportBadges ["first_test"] [historyRepFix] :=
  c2_amended ["first_test"] [historyRepFix] (by decide)

/-- C7: with reports on Jan 1, 2, 2, 3, 5, 6, 7, 8 of 1970 the longest run
of distinct consecutive days is 4, so the 5-day streak badge is not
granted; adding a report on Jan 4 closes the gap and it is granted. -/
theorem c7_streak_example :
    "streak_5_day" ∉ checkAllBadges streakRepsA
      ∧ "streak_5_day" ∈ checkAllBadges streakRepsB := by
  decide

theorem gradeAnswers_no_mcq (full : Bool) (gen : Question → Answer → String)
    (qs : List Question) (hq : ∀ q ∈ qs, q.questionType ≠ QuestionType.MCQ) :
    ∀ (ans : List Answer) (i : Nat) (out : GradeOut),
      gradeAnswers full gen qs i ans = some out → out.totalMcqMarks = 0 := by
  intro ans
  induction ans with
  | nil =>
      intro i out h
      simp only [gradeAnswers, Option.some.injEq] at h
      rw [← h]
  | cons a rest ih =>
      intro i out h
      simp only [gradeAnswers] at h
      cases hqi : qs[i]? with
      | none => rw [hqi, Option.none_bind] at h; cases h
      | some q =>
          rw [hqi, Option.some_bind] at h
          cases hrec : gradeAnswers full gen qs (i + 1) rest with
          | none => rw [hrec] at h; cases h
          | some out1 =>
              rw [hrec, Option.map_some', Option.some.injEq] at h
              have hm : q.questionType ≠ QuestionType.MCQ := hq q (List.getElem?_mem hqi)
              have hr := ih (i + 1) out1 hrec
              rw [← h]
              simp [gradeStep, hm, hr]

/-- C1 counterexample: grading a test whose question list contains zero
multiple-choice questions yields `score = 0`, not `100` as claimed. -/
theorem c1_counterexample :
    Option.map Report.score (submitTest true genFix testShortFix [ansFix 0 none] 10 0 "r")
        = some 0
      ∧ (0 : ℚ) ≠ 100 := by
  constructor
  · simp [submitTest, gradeAnswers, gradeStep, topicsOfIncorrect, testShortFix, qShortFix,
      ansFix, dedupKeepFirst]
  · norm_num

/-- C1 amended: for every grading run over a test whose question list
contains zero multiple-choice questions, the produced Report's score
equals 0 (the source's degenerate branch is `: 0`, not `: 100`). -/
theorem c1_amended (full : Bool) (gen : Question → Answer → String) (test : Test)
    (answers : List Answer) (tt : Nat) (d : Int) (rid : String) (rep : Report)
    (hq : ∀ q ∈ test.questions, q.questionType ≠ QuestionType.MCQ)
    (hs : submitTest full gen test answers tt d rid = some rep) :
    rep.score = 0 := by
  unfold submitTest at hs
  cases hout : gradeAnswers full gen test.questions 0 answers with
  | none => rw [hout, Option.none_bind] at hs; cases hs
  | some out =>
      rw [hout, Option.some_bind] at hs
      cases hts : topicsOfIncorrect test.questions out.answers with
      | none => rw [hts] at hs; cases hs
      | some ts =>
          rw [hts, Option.map_some', Option.some.injEq] at hs
          have hm : out.totalMcqMarks = 0 :=
            gradeAnswers_no_mcq full gen test.questions hq answers 0 out hout
          rw [← hs]
          simp [hm]

/-- Witness for C1-amended at the concrete all-free-text test. -/
theorem c1_witness : c1rep.score = 0 :=
  c1_amended true genFix testShortFix [ansFix 0 none] 10 0 "r" c1rep (by decide)
    (Option.some_get (by decide)).symm

/-- C6: for an active improvement goal evaluated within its window, the
recomputed `currentValue` is `max 0 (windowAvg - baselineAvg)` when
in-window subject-matching reports exist and `0` otherwise; in particular
it is never negative and is exactly 0 when no in-window report exists. -/
theorem c6_improvement_value (now : Int) (reports : List Report) (goal : Goal)
    (ht : goal.type = GoalType.improvement)
    (ha : goal.status = GoalStatus.active)
    (hin : ¬ now > goalWindowEnd goal) :
    (updateGoal now reports goal).currentValue
        = (if 0 < (progressReportsOf goal reports).length then
             max 0 (calculateAverage (progressReportsOf goal reports)
                      - calculateAverage (baselineReportsOf goal reports))
           else 0)
      ∧ 0 ≤ (updateGoal now reports goal).currentValue
      ∧ (progressReportsOf goal reports = []
          → (updateGoal now reports goal).currentValue = 0) := by
  have hne : ¬ goal.status = GoalStatus.completed := by rw [ha]; decide
  have hno : ¬ (now > goalWindowEnd goal ∧ goal.status = GoalStatus.active) :=
    fun hcon => hin hcon.1
  have hval : (updateGoal now reports goal).currentValue
      = max 0 (if 0 < (progressReportsOf goal reports).length then
                 calculateAverage (progressReportsOf goal reports)
                   - calculateAverage (baselineReportsOf goal reports)
               else 0) := by
    unfold updateGoal
    rw [if_neg hne, if_neg hno, ht]
  refine ⟨?_, ?_, ?_⟩
  · rw [hval]
    by_cases hl : 0 < (progressReportsOf goal reports).length
    · simp [hl]
    · simp [hl]
  · rw [hval]
    exact le_max_left 0 _
  · intro hemp
    rw [hval, hemp]
    simp

/-- Witness for C6 at a concrete improvement goal with one in-window and
one baseline report. -/
theorem c6_witness :
    (updateGoal (2 * 86400000) c6reports goalImpFix).currentValue
        = (if 0 < (progressReportsOf goalImpFix c6reports).length then
             max 0 (calculateAverage (progressReportsOf goalImpFix c6reports)
                      - calculateAverage (baselineReportsOf goalImpFix c6reports))
           else 0)
      ∧ 0 ≤ (updateGoal (2 * 86400000) c6reports goalImpFix).currentValue
      ∧ (progressReportsOf goalImpFix c6reports = []
          → (updateGoal (2 * 86400000) c6reports goalImpFix).currentValue = 0) :=
  c6_improvement_value (2 * 86400000) c6reports goalImpFix rfl rfl (by decide)

theorem gradeAnswers_none_of_long (full : Bool) (gen : Question → Answer → String)
    (qs : List Question) :
    ∀ (rest : List Answer) (a : Answer) (i : Nat),
      qs.length < i + (a :: rest).length →
      gradeAnswers full gen qs i (a :: rest) = none := by
  intro rest
  induction rest with
  | nil =>
      intro a i h
      have hlen : qs.length ≤ i := by simp at h; omega
      simp only [gradeAnswers]
      rw [List.getElem?_eq_none hlen, Option.none_bind]
  | cons b rest ih =>
      intro a i h
      have hrec : gradeAnswers full gen qs (i + 1) (b :: rest) = none := by
        apply ih
        simp at h ⊢
        omega
      rw [show gradeAnswers full gen qs i (a :: b :: rest)
            = (qs[i]?).bind fun q =>
                (gradeAnswers full gen qs (i + 1) (b :: rest)).map (gradeStep full gen q a)
          from rfl]
      simp only [hrec, Option.map_none']
      cases qs[i]? <;> rfl

theorem gradeAnswers_take (full : Bool) (gen : Question → Answer → String)
    (qs : List Question) :
    ∀ (ans : List Answer) (i k : Nat), i + ans.length ≤ k →
      gradeAnswers full gen (qs.take k) i ans = gradeAnswers full gen qs i ans := by
  intro ans
  induction ans with
  | nil => intro i k _; rfl
  | cons a rest ih =>
      intro i k h
      have hik : i < k := by simp at h; omega
      simp only [gradeAnswers]
      rw [List.getElem?_take, if_pos hik, ih (i + 1) k (by simp at h ⊢; omega)]

theorem gradeAnswers_questionIndex (full : Bool) (gen : Question → Answer → String)
    (qs : List Question) :
    ∀ (ans : List Answer) (i : Nat) (out : GradeOut),
      gradeAnswers full gen qs i ans = some out →
      out.answers.map Answer.questionIndex = ans.map Answer.questionIndex := by
  intro ans
  induction ans with
  | nil =>
      intro i out h
      simp only [gradeAnswers, Option.some.injEq] at h
      rw [← h]
  | cons a rest ih =>
      intro i out h
      simp only [gradeAnswers] at h
      cases hqi : qs[i]? with
      | none => rw [hqi, Option.none_bind] at h; cases h
      | some q =>
          rw [hqi, Option.some_bind] at h
          cases hrec : gradeAnswers full gen qs (i + 1) rest with
          | none => rw [hrec] at h; cases h
          | some out1 =>
              rw [hrec, Option.map_some', Option.some.injEq] at h
              rw [← h]
              simp [gradeStep, ih (i + 1) out1 hrec]

theorem gradeAnswers_isSome (full : Bool) (gen : Question → Answer → String)
    (qs : List Question) :
    ∀ (ans : List Answer) (i : Nat), i + ans.length ≤ qs.length →
      ∃ out, gradeAnswers full gen qs i ans = some out := by
  intro ans
  induction ans with
  | nil => intro i _; exact ⟨⟨[], 0, 0, 0⟩, rfl⟩
  | cons a rest ih =>
      intro i h
      have hi : i < qs.length := by simp at h; omega
      obtain ⟨out1, hout1⟩ := ih (i + 1) (by simp at h ⊢; omega)
      refine ⟨gradeStep full gen qs[i] a out1, ?_⟩
      simp only [gradeAnswers]
      rw [List.getElem?_eq_getElem hi, Option.some_bind, hout1, Option.map_some']

theorem topicsOfIncorrect_eq_spec (qs : List Question) :
    ∀ (ans : List Answer) (ts : List String),
      topicsOfIncorrect qs ans = some ts → specIncorrectTopics qs ans = ts := by
  intro ans
  induction ans with
  | nil =>
      intro ts h
      simp only [topicsOfIncorrect, Option.some.injEq] at h
      rw [← h]
      rfl
  | cons a rest ih =>
      intro ts h
      simp only [topicsOfIncorrect] at h
      by_cases hc : a.isCorrect = some false
      · rw [if_pos hc] at h
        cases hqi : qs[a.questionIndex]? with
        | none => rw [hqi, Option.none_bind] at h; cases h
        | some q =>
            rw [hqi, Option.some_bind] at h
            cases hrec : topicsOfIncorrect qs rest with
            | none => rw [hrec] at h; cases h
            | some ts1 =>
                rw [hrec, Option.map_some', Option.some.injEq] at h
                rw [← h]
                simp [specIncorrectTopics, List.filterMap_cons, hc, hqi]
                have := ih ts1 hrec
                simpa [specIncorrectTopics] using this
      · rw [if_neg hc] at h
        have := ih ts h
        simp only [specIncorrectTopics, List.filterMap_cons, if_neg hc] at this ⊢
        exact this

theorem topicsOfIncorrect_isSome (qs : List Question) :
    ∀ (ans : List Answer), (∀ a ∈ ans, a.questionIndex < qs.length) →
      ∃ ts, topicsOfIncorrect qs ans = some ts := by
  intro ans
  induction ans with
  | nil => exact fun _ => ⟨[], rfl⟩
  | cons a rest ih =>
      intro h
      obtain ⟨ts1, hts1⟩ := ih (fun b hb => h b (List.mem_cons_of_mem a hb))
      by_cases hc : a.isCorrect = some false
      · have hi : a.questionIndex < qs.length := h a (List.mem_cons_self a rest)
        refine ⟨qs[a.questionIndex].topic :: ts1, ?_⟩
        simp only [topicsOfIncorrect, if_pos hc]
        rw [List.getElem?_eq_getElem hi, Option.some_bind, hts1, Option.map_some']
      · exact ⟨ts1, by simp only [topicsOfIncorrect, if_neg hc]; exact hts1⟩

theorem topicsOfIncorrect_take (qs : List Question) (k : Nat) :
    ∀ (ans : List Answer), (∀ a ∈ ans, a.questionIndex < k) →
      topicsOfIncorrect (qs.take k) ans = topicsOfIncorrect qs ans := by
  intro ans
  induction ans with
  | nil => intro _; rfl
  | cons a rest ih =>
      intro h
      simp only [topicsOfIncorrect]
      rw [ih (fun b hb => h b (List.mem_cons_of_mem a hb))]
      by_cases hc : a.isCorrect = some false
      · rw [if_pos hc, if_pos hc, List.getElem?_take,
          if_pos (h a (List.mem_cons_self a rest))]
      · rw [if_neg hc, if_neg hc]

theorem mem_dedupKeepFirst [DecidableEq α] (x : α) :
    ∀ (l seen : List α), x ∈ dedupKeepFirst seen l ↔ x ∈ l ∧ x ∉ seen := by
  intro l
  induction l with
  | nil => intro seen; simp [dedupKeepFirst]
  | cons y ys ih =>
      intro seen
      simp only [dedupKeepFirst]
      by_cases hy : y ∈ seen
      · rw [if_pos hy, ih seen]
        constructor
        · exact fun h => ⟨List.mem_cons_of_mem y h.1, h.2⟩
        · rintro ⟨h1, h2⟩
          rcases List.mem_cons.mp h1 with rfl | h1
          · exact absurd hy h2
          · exact ⟨h1, h2⟩
      · rw [if_neg hy]
        constructor
        · intro h
          rcases List.mem_cons.mp h with rfl | h
          · exact ⟨List.mem_cons_self x ys, hy⟩
          · have := (ih (y :: seen)).mp h
            refine ⟨List.mem_cons_of_mem y this.1, fun hx => this.2 (List.mem_cons_of_mem y hx)⟩
        · rintro ⟨h1, h2⟩
          rcases List.mem_cons.mp h1 with rfl | h1
          · exact List.mem_cons_self x _
          · by_cases hxy : x = y
            · rw [hxy]; exact List.mem_cons_self y _
            · refine List.mem_cons_of_mem y ((ih (y :: seen)).mpr ⟨h1, fun hx => ?_⟩)
              rcases List.mem_cons.mp hx with h | h
              · exact hxy h
              · exact h2 h

theorem dedupKeepFirst_nodup [DecidableEq α] :
    ∀ (l seen : List α), (dedupKeepFirst seen l).Nodup := by
  intro l
  induction l with
  | nil => intro seen; simp [dedupKeepFirst]
  | cons y ys ih =>
      intro seen
      simp only [dedupKeepFirst]
      by_cases hy : y ∈ seen
      · rw [if_pos hy]; exact ih seen
      · rw [if_neg hy]
        refine List.nodup_cons.mpr ⟨?_, ih (y :: seen)⟩
        intro hmem
        exact ((mem_dedupKeepFirst y ys (y :: seen)).mp hmem).2 (List.mem_cons_self y seen)

theorem dedupKeepFirst_sublist [DecidableEq α] :
    ∀ (l seen : List α), List.Sublist (dedupKeepFirst seen l) l := by
  intro l
  induction l with
  | nil => intro seen; simp [dedupKeepFirst]
  | cons y ys ih =>
      intro seen
      simp only [dedupKeepFirst]
      by_cases hy : y ∈ seen
      · rw [if_pos hy]; exact (ih seen).cons y
      · rw [if_neg hy]; exact (ih (y :: seen)).cons₂ y

/-- C3 counterexample: with two one-mark multiple-choice questions and a
single (correct) answer entry, the code reports `score = 100` — the
missing question's marks are absent from the gradable denominator, where
the claim's treatment (unanswered = incorrect, marks still counted) would
give `score = 50` and a weak area; and with more answers than questions
grading throws instead of producing a Report. -/
theorem c3_counterexample :
    Option.map (fun r => (r.score, r.weakAreas))
        (submitTest true genFix testTwoMcqFix [ansFix 0 (some 1)] 10 0 "r") = some (100, [])
      ∧ (100 : ℚ) ≠ 50
      ∧ submitTest true genFix testOneMcqFix [ansFix 0 (some 1), ansFix 1 none] 10 0 "r"
          = none := by
  refine ⟨?_, by norm_num, by decide⟩
  simp [submitTest, gradeAnswers, gradeStep, topicsOfIncorrect, testTwoMcqFix, qMcqFix,
    ansFix, dedupKeepFirst]

/-- C3 amended: grading does not defensively default. When the answer list
is shorter than the question list (each answer's `questionIndex` lying
within the answer range, as the app constructs them), a Report is still
produced, but the trailing answerless questions are skipped entirely —
they are not counted incorrect and contribute nothing to the score, the
gradable denominator, the correct count or the weak areas, which all equal
those of the truncated question list; only `totalMarks` and
`totalQuestions` still range over all questions. When the answer list is
longer than the question list, grading throws and no Report is produced. -/
theorem c3_amended (full : Bool) (gen : Question → Answer → String)
    (tid subj chap : String) (qs : List Question) (answers : List Answer)
    (tt : Nat) (d : Int) (rid : String)
    (hidx : ∀ a ∈ answers, a.questionIndex < answers.length) :
    (qs.length < answers.length →
        submitTest full gen ⟨tid, subj, chap, qs⟩ answers tt d rid = none)
      ∧ (answers.length ≤ qs.length →
          ((submitTest full gen ⟨tid, subj, chap, qs⟩ answers tt d rid).isSome = true
            ∧ Option.map Report.score
                  (submitTest full gen ⟨tid, subj, chap, qs⟩ answers tt d rid)
                = Option.map Report.score
                  (submitTest full gen ⟨tid, subj, chap, qs.take answers.length⟩ answers tt d rid)
            ∧ Option.map Report.marksScored
                  (submitTest full gen ⟨tid, subj, chap, qs⟩ answers tt d rid)
                = Option.map Report.marksScored
                  (submitTest full gen ⟨tid, subj, chap, qs.take answers.length⟩ answers tt d rid)
            ∧ Option.map Report.correctAnswers
                  (submitTest full gen ⟨tid, subj, chap, qs⟩ answers tt d rid)
                = Option.map Report.correctAnswers
                  (submitTest full gen ⟨tid, subj, chap, qs.take answers.length⟩ answers tt d rid)
            ∧ Option.map Report.weakAreas
                  (submitTest full gen ⟨tid, subj, chap, qs⟩ answers tt d rid)
                = Option.map Report.weakAreas
                  (submitTest full gen ⟨tid, subj, chap, qs.take answers.length⟩ answers tt d rid)
            ∧ Option.map Report.totalMarks
                  (submitTest full gen ⟨tid, subj, chap, qs⟩ answers tt d rid)
                = some ((qs.map Question.marks).sum)
            ∧ Option.map Report.totalQuestions
                  (submitTest full gen ⟨tid, subj, chap, qs⟩ answers tt d rid)
                = some qs.length)) := by
  constructor
  · intro hlen
    cases answers with
    | nil => simp at hlen
    | cons a rest =>
        show ((gradeAnswers full gen qs 0 (a :: rest)).bind _) = none
        rw [gradeAnswers_none_of_long full gen qs rest a 0 (by simpa using hlen),
          Option.none_bind]
  · intro hlen
    obtain ⟨out, hout⟩ := gradeAnswers_isSome full gen qs answers 0 (by omega)
    have houtT : gradeAnswers full gen (qs.take answers.length) 0 answers = some out := by
      rw [gradeAnswers_take full gen qs answers 0 answers.length (by omega)]
      exact hout
    have hmap := gradeAnswers_questionIndex full gen qs answers 0 out hout
    have hidxOut : ∀ a ∈ out.answers, a.questionIndex < answers.length := by
      intro a ha
      have hmem : a.questionIndex ∈ out.answers.map Answer.questionIndex :=
        List.mem_map_of_mem Answer.questionIndex ha
      rw [hmap] at hmem
      obtain ⟨b, hb, hbeq⟩ := List.mem_map.mp hmem
      rw [← hbeq]
      exact hidx b hb
    obtain ⟨ts, hts⟩ := topicsOfIncorrect_isSome qs out.answers
      (fun a ha => lt_of_lt_of_le (hidxOut a ha) hlen)
    have htsT : topicsOfIncorrect (qs.take answers.length) out.answers = some ts := by
      rw [topicsOfIncorrect_take qs answers.length out.answers hidxOut]
      exact hts
    simp only [submitTest, hout, houtT, Option.some_bind, hts, htsT, Option.map_some']
    refine ⟨?_, ?_, ?_, ?_, ?_, ?_, ?_⟩ <;> trivial

/-- Witness for C3-amended: a two-question multiple-choice test with a
single answer entry. -/
theorem c3_witness :
    (([qMcqFix "T1", qMcqFix "T2"] : List Question).length
          < ([ansFix 0 (some 1)] : List Answer).length →
        submitTest true genFix ⟨"t2", "Math", "ch", [qMcqFix "T1", qMcqFix "T2"]⟩
          [ansFix 0 (some 1)] 10 0 "r" = none)
      ∧ (([ansFix 0 (some 1)] : List Answer).length
            ≤ ([qMcqFix "T1", qMcqFix "T2"] : List Question).length →
          ((submitTest true genFix ⟨"t2", "Math", "ch", [qMcqFix "T1", qMcqFix "T2"]⟩
              [ansFix 0 (some 1)] 10 0 "r").isSome = true
            ∧ Option.map Report.score
                  (submitTest true genFix ⟨"t2", "Math", "ch", [qMcqFix "T1", qMcqFix "T2"]⟩
                    [ansFix 0 (some 1)] 10 0 "r")
                = Option.map Report.score
                  (submitTest true genFix
                    ⟨"t2", "Math", "ch",
                      ([qMcqFix "T1", qMcqFix "T2"] : List Question).take
                        ([ansFix 0 (some 1)] : List Answer).length⟩
                    [ansFix 0 (some 1)] 10 0 "r")
            ∧ Option.map Report.marksScored
                  (submitTest true genFix ⟨"t2", "Math", "ch", [qMcqFix "T1", qMcqFix "T2"]⟩
                    [ansFix 0 (some 1)] 10 0 "r")
                = Option.map Report.marksScored
                  (submitTest true genFix
                    ⟨"t2", "Math", "ch",
                      ([qMcqFix "T1", qMcqFix "T2"] : List Question).take
                        ([ansFix 0 (some 1)] : List Answer).length⟩
                    [ansFix 0 (some 1)] 10 0 "r")
            ∧ Option.map Report.correctAnswers
                  (submitTest true genFix ⟨"t2", "Math", "ch", [qMcqFix "T1", qMcqFix "T2"]⟩
                    [ansFix 0 (some 1)] 10 0 "r")
                = Option.map Report.correctAnswers
                  (submitTest true genFix
                    ⟨"t2", "Math", "ch",
                      ([qMcqFix "T1", qMcqFix "T2"] : List Question).take
                        ([ansFix 0 (some 1)] : List Answer).length⟩
                    [ansFix 0 (some 1)] 10 0 "r")
            ∧ Option.map Report.weakAreas
                  (submitTest true genFix ⟨"t2", "Math", "ch", [qMcqFix "T1", qMcqFix "T2"]⟩
                    [ansFix 0 (some 1)] 10 0 "r")
                = Option.map Report.weakAreas
                  (submitTest true genFix
                    ⟨"t2", "Math", "ch",
                      ([qMcqFix "T1", qMcqFix "T2"] : List Question).take
                        ([ansFix 0 (some 1)] : List Answer).length⟩
                    [ansFix 0 (some 1)] 10 0 "r")
            ∧ Option.map Report.totalMarks
                  (submitTest true genFix ⟨"t2", "Math", "ch", [qMcqFix "T1", qMcqFix "T2"]⟩
                    [ansFix 0 (some 1)] 10 0 "r")
                = some ((([qMcqFix "T1", qMcqFix "T2"] : List Question).map Question.marks).sum)
            ∧ Option.map Report.totalQuestions
                  (submitTest true genFix ⟨"t2", "Math", "ch", [qMcqFix "T1", qMcqFix "T2"]⟩
                    [ansFix 0 (some 1)] 10 0 "r")
                = some ([qMcqFix "T1", qMcqFix "T2"] : List Question).length)) :=
  c3_amended true genFix "t2" "Math" "ch" [qMcqFix "T1", qMcqFix "T2"]
    [ansFix 0 (some 1)] 10 0 "r" (by decide)

/-- C8: for every graded Report, `weakAreas` is the first-occurrence-order
deduplication of the topic labels of the questions answered incorrectly:
it contains no duplicates, every element is the topic of some incorrectly
answered question (so never only of correctly-answered or ungraded ones),
and its order is a subsequence of the answer-order topic list. -/
theorem c8_weak_areas (full : Bool) (gen : Question → Answer → String) (test : Test)
    (answers : List Answer) (tt : Nat) (d : Int) (rid : String) (rep : Report)
    (hs : submitTest full gen test answers tt d rid = some rep) :
    rep.weakAreas = dedupKeepFirst [] (specIncorrectTopics rep.questions rep.answers)
      ∧ rep.weakAreas.Nodup
      ∧ rep.weakAreas ⊆ specIncorrectTopics rep.questions rep.answers
      ∧ List.Sublist rep.weakAreas (specIncorrectTopics rep.questions rep.answers) := by
  unfold submitTest at hs
  cases hout : gradeAnswers full gen test.questions 0 answers with
  | none => rw [hout, Option.none_bind] at hs; cases hs
  | some out =>
      rw [hout, Option.some_bind] at hs
      cases hts : topicsOfIncorrect test.questions out.answers with
      | none => rw [hts] at hs; cases hs
      | some ts =>
          rw [hts, Option.map_some', Option.some.injEq] at hs
          have hspec : specIncorrectTopics test.questions out.answers = ts :=
            topicsOfIncorrect_eq_spec test.questions out.answers ts hts
          have hwa : rep.weakAreas = dedupKeepFirst [] ts := by rw [← hs]
          have hq2 : rep.questions = test.questions := by rw [← hs]
          have ha2 : rep.answers = out.answers := by rw [← hs]
          rw [hwa, hq2, ha2, hspec]
          refine ⟨rfl, dedupKeepFirst_nodup ts [], ?_, dedupKeepFirst_sublist ts []⟩
          intro x hx
          exact ((mem_dedupKeepFirst x ts []).mp hx).1

/-- Witness for C8 at the four-question test with answers
`[correct, correct, incorrect, unanswered]`. -/
theorem c8_witness :
    c8rep.weakAreas = dedupKeepFirst [] (specIncorrectTopics c8rep.questions c8rep.answers)
      ∧ c8rep.weakAreas.Nodup
      ∧ c8rep.weakAreas ⊆ specIncorrectTopics c8rep.questions c8rep.answers
      ∧ List.Sublist c8rep.weakAreas (specIncorrectTopics c8rep.questions c8rep.answers) :=
  c8_weak_areas true genFix testFourFix fourAnswers 100 0 "r8" c8rep
    (Option.some_get (by decide)).symm
